import Mathlib

/-!
Verification development for the chat-backend core of this repository:
request validators, in-memory chat session store, fixed-window rate
limiter, SSE stream adapters, error taxonomy, and the chat/health route
handlers.  Each definition is a shallow embedding of the corresponding
TypeScript function; stateful code is modelled by explicit state passing,
`Date.now()` by an explicit `Nat` millisecond parameter, and
`crypto.randomUUID()` by a fresh-id counter supply.
-/

/-! ### JavaScript value model (decoded JSON) -/

/-- A decoded JSON value as produced by `request.json()`. -/
inductive JValue where
  | jnull
  | jbool (b : Bool)
  | jnum (n : Int)
  | jstr (s : String)
  | jarr (elems : List JValue)
  | jobj (fields : List (String × JValue))

/-- JavaScript truthiness of a decoded JSON value. -/
def jsTruthy : JValue → Bool
  | .jnull => false
  | .jbool b => b
  | .jnum n => n != 0
  | .jstr s => s != ""
  | .jarr _ => true
  | .jobj _ => true

/-- `typeof v === 'object'` for a decoded JSON value: objects, arrays and
`null` all have typeof `object`. -/
def jsTypeofObject : JValue → Bool
  | .jnull => true
  | .jarr _ => true
  | .jobj _ => true
  | _ => false

/-- Property access `v[k]`; `none` models `undefined`.  Arrays have no
non-index string properties that the validators consult. -/
def getField (v : JValue) (k : String) : Option JValue :=
  match v with
  | .jobj fields => (fields.find? (fun p => p.1 == k)).map Prod.snd
  | _ => none

/-! ### `String.prototype.includes` and `toLowerCase` -/

/-- Whether `sub` occurs as a contiguous run inside `s`. -/
def charsHaveSub (sub : List Char) : List Char → Bool
  | [] => sub.isEmpty
  | c :: rest => sub.isPrefixOf (c :: rest) || charsHaveSub sub rest

/-- `s.includes(sub)` of JavaScript strings. -/
def jsIncludes (s sub : String) : Bool :=
  charsHaveSub sub.data s.data

/-- `s.toLowerCase()` (character-wise ASCII lowering; the messages being
matched are ASCII). -/
def jsToLower (s : String) : String :=
  ⟨s.data.map Char.toLower⟩

/-- `s.trim()`: strip whitespace from both ends. -/
def jsTrim (s : String) : String :=
  ⟨((s.data.dropWhile Char.isWhitespace).reverse.dropWhile Char.isWhitespace).reverse⟩

/-! ### Error taxonomy (`src/lib/errors.ts`, listed in the README) -/

/-- The `ApiError` class: message, HTTP status, stable code, optional
details.  `toResponse()` serialises exactly these fields. -/
structure ApiError where
  message : String
  status : Nat
  code : String
  details : Option String
deriving DecidableEq

namespace Errors

/-- `Errors.badRequest` -/
def badRequest (message : String) : ApiError :=
  ⟨message, 400, "BAD_REQUEST", none⟩

/-- `Errors.unauthorized` -/
def unauthorized (message : String) : ApiError :=
  ⟨message, 401, "UNAUTHORIZED", none⟩

/-- `Errors.notFound` -/
def notFound (resource : String) : ApiError :=
  ⟨resource ++ " not found", 404, "NOT_FOUND", none⟩

/-- `Errors.rateLimitExceeded`; a `retryAfter` of `0` is falsy in the
source, hence no details in that case. -/
def rateLimitExceeded (retryAfter : Option Nat) : ApiError :=
  ⟨"Rate limit exceeded. Please try again later.", 429, "RATE_LIMIT_EXCEEDED",
    match retryAfter with
    | some n => if n = 0 then none else some ("Retry after " ++ toString n ++ " seconds")
    | none => none⟩

/-- `Errors.internal` -/
def internal (message : String) (details : Option String) : ApiError :=
  ⟨message, 500, "INTERNAL_ERROR", details⟩

/-- `Errors.modelNotAvailable` -/
def modelNotAvailable (model : String) : ApiError :=
  ⟨"Model " ++ model ++ " is not available", 400, "MODEL_NOT_AVAILABLE",
    some "Please check if the API key for this model is configured"⟩

/-- `Errors.validation` -/
def validation (message : String) (details : Option String) : ApiError :=
  ⟨message, 400, "VALIDATION_ERROR", details⟩

end Errors

/-- A thrown JavaScript value as discriminated by `handleError`:
an `ApiError`, some other `Error` (with its `message`), or a non-`Error`
value. -/
inductive JsThrown where
  | api (e : ApiError)
  | err (msg : String)
  | other

/-- `handleError` from `src/lib/errors.ts` (full listing in
`src/.stack-app/README.md`): pattern-matches the lower-cased message and
maps to the taxonomy. -/
def handleError : JsThrown → ApiError
  | .api e => e
  | .err msgRaw =>
    let m := jsToLower msgRaw
    if jsIncludes m "rate limit" || jsIncludes m "429" then
      Errors.rateLimitExceeded none
    else if jsIncludes m "api key" || jsIncludes m "authentication" || jsIncludes m "401" then
      Errors.unauthorized "Invalid or missing API key"
    else if jsIncludes m "timeout" || jsIncludes m "timed out" then
      ⟨"Request timed out", 504, "TIMEOUT", none⟩
    else
      Errors.internal msgRaw none
  | .other => Errors.internal "An unexpected error occurred" none

/-! ### Stream normalizer (`src/sideview-app/src/lib/ai/stream.ts`) -/

/-- An Anthropic `MessageStreamEvent`: either a `content_block_delta`
whose delta may carry a `text` field, or any other event type. -/
inductive AnthropicEvent where
  | contentBlockDelta (text? : Option String)
  | otherEvent

/-- `extractAnthropicText` -/
def extractAnthropicText : AnthropicEvent → Option String
  | .contentBlockDelta t => t
  | .otherEvent => none

/-- OpenAI `ChatCompletionChunk` delta payload. -/
structure OpenAIDelta where
  content : Option String

/-- One entry of `chunk.choices`. -/
structure OpenAIChoice where
  delta : Option OpenAIDelta
  finishReason : Option String

/-- OpenAI `ChatCompletionChunk`. -/
structure OpenAIChunk where
  choices : List OpenAIChoice

/-- `extractOpenAIText`: `chunk.choices[0]?.delta?.content || null`
(the empty string is falsy, hence `none`). -/
def extractOpenAIText (chunk : OpenAIChunk) : Option String :=
  match chunk.choices.head? with
  | some choice =>
    match choice.delta with
    | some d =>
      match d.content with
      | some s => if s = "" then none else some s
      | none => none
    | none => none
  | none => none

/-- One hexadecimal digit. -/
def hexDigit (n : Nat) : Char :=
  if n < 10 then Char.ofNat (48 + n) else Char.ofNat (87 + n)

/-- `JSON.stringify` escaping of a single character inside a string
literal. -/
def jsonEscapeChar (c : Char) : List Char :=
  if c = '"' then ['\\', '"']
  else if c = '\\' then ['\\', '\\']
  else if c = '\n' then ['\\', 'n']
  else if c = '\r' then ['\\', 'r']
  else if c = '\t' then ['\\', 't']
  else if c = '\x08' then ['\\', 'b']
  else if c = '\x0c' then ['\\', 'f']
  else if c.toNat < 32 then ['\\', 'u', '0', '0', hexDigit (c.toNat / 16), hexDigit (c.toNat % 16)]
  else [c]

/-- `JSON.stringify` escaping of a whole string (without the quotes). -/
def jsonEscape (s : String) : String :=
  ⟨(s.data.map jsonEscapeChar).flatten⟩

/-- The SSE record `data: ${JSON.stringify(\x7b text \x7d)}\n\n`. -/
def jsonTextRecord (t : String) : String :=
  "data: " ++ ("\x7b\"text\":\"" ++ jsonEscape t ++ "\"\x7d") ++ "\n\n"

/-- The SSE record `data: ${JSON.stringify(\x7b error \x7d)}\n\n`. -/
def jsonErrorRecord (m : String) : String :=
  "data: " ++ ("\x7b\"error\":\"" ++ jsonEscape m ++ "\"\x7d") ++ "\n\n"

/-- The SSE sentinel record `data: [DONE]\n\n`. -/
def doneRecord : String := "data: [DONE]\n\n"

/-- The message used by the stream catch block:
`error instanceof Error ? error.message : 'Stream error'`
(`ApiError` extends `Error`). -/
def thrownStreamMessage : JsThrown → String
  | .api e => e.message
  | .err m => m
  | .other => "Stream error"

/-- The terminal record of a stream run: `[DONE]` when the upstream
iteration completes normally, the error record when it raises. -/
def terminalRecord : Option JsThrown → String
  | none => doneRecord
  | some ex => jsonErrorRecord (thrownStreamMessage ex)

/-- The `for await` loop body of `createAnthropicStream`:
`if (text) controller.enqueue(...)` — `text` must be non-null and
nonempty. -/
def anthropicLoop : List AnthropicEvent → List String
  | [] => []
  | e :: rest =>
    (match extractAnthropicText e with
     | some t => if t = "" then [] else [jsonTextRecord t]
     | none => []) ++ anthropicLoop rest

/-- `createAnthropicStream`: the upstream is a finite sequence of events
followed by either normal completion (`none`) or a raised value.  The
result is the list of enqueued SSE records, in order. -/
def createAnthropicStream (events : List AnthropicEvent) (raised : Option JsThrown) :
    List String :=
  anthropicLoop events ++ [terminalRecord raised]

/-- `chunk.choices[0]?.finish_reason` -/
def openAIFinishReason (chunk : OpenAIChunk) : Option String :=
  chunk.choices.head?.bind (fun c => c.finishReason)

/-- Whether the loop breaks on this chunk. -/
def openAIBreaks (chunk : OpenAIChunk) : Bool :=
  openAIFinishReason chunk == some "stop" || openAIFinishReason chunk == some "length"

/-- The `for await` loop of `createOpenAIStream`, including the
`break` on a `stop`/`length` finish reason and the terminal record. -/
def openAILoop : List OpenAIChunk → Option JsThrown → List String
  | [], raised => [terminalRecord raised]
  | c :: rest, raised =>
    (match extractOpenAIText c with
     | some t => [jsonTextRecord t]
     | none => []) ++
    (if openAIBreaks c then [doneRecord] else openAILoop rest raised)

/-- `createOpenAIStream`: records enqueued for a finite upstream chunk
sequence followed by normal completion (`none`) or a raised value; the
raised value is only reached when the loop does not break early. -/
def createOpenAIStream (chunks : List OpenAIChunk) (raised : Option JsThrown) :
    List String :=
  openAILoop chunks raised

/-- The text deltas the Anthropic adapter emits: extracted, nonempty, in
upstream order. -/
def anthropicDeltas (events : List AnthropicEvent) : List String :=
  events.filterMap (fun e =>
    (extractAnthropicText e).bind (fun t => if t = "" then none else some t))

/-- Whether the OpenAI loop stops early on some chunk of the sequence. -/
def openAIStopsEarly : List OpenAIChunk → Bool
  | [] => false
  | c :: rest => openAIBreaks c || openAIStopsEarly rest

/-- The text deltas the OpenAI adapter emits: extracted from the chunks
the loop consumes, in order. -/
def openAIDeltas : List OpenAIChunk → List String
  | [] => []
  | c :: rest =>
    (match extractOpenAIText c with
     | some t => [t]
     | none => []) ++
    (if openAIBreaks c then [] else openAIDeltas rest)

/-! ### Rate limiter (`src/sideview-app/src/app/api/chat/route.ts`) -/

/-- One entry of `rateLimitMap`. -/
structure RateRecord where
  count : Nat
  resetAt : Nat
deriving DecidableEq

/-- `RATE_LIMIT = 30` requests per window. -/
def RATE_LIMIT : Nat := 30

/-- `RATE_WINDOW = 60 * 1000` milliseconds. -/
def RATE_WINDOW : Nat := 60 * 1000

/-- The value returned by `checkRateLimit`. -/
structure RateOutcome where
  allowed : Bool
  remaining : Nat
  resetAt : Nat
deriving DecidableEq

/-- `checkRateLimit`, with `Date.now()` and the map entry for the client
made explicit; returns the outcome and the entry stored afterwards. -/
def checkRateLimit (now : Nat) (entry : Option RateRecord) :
    RateOutcome × RateRecord :=
  match entry with
  | none => (⟨true, RATE_LIMIT - 1, now + RATE_WINDOW⟩, ⟨1, now + RATE_WINDOW⟩)
  | some record =>
    if now > record.resetAt then
      (⟨true, RATE_LIMIT - 1, now + RATE_WINDOW⟩, ⟨1, now + RATE_WINDOW⟩)
    else if record.count ≥ RATE_LIMIT then
      (⟨false, 0, record.resetAt⟩, record)
    else
      (⟨true, RATE_LIMIT - (record.count + 1), record.resetAt⟩,
        ⟨record.count + 1, record.resetAt⟩)

/-- Successive `checkRateLimit` calls for one client at the given times;
returns the per-call outcomes and the final map entry. -/
def runChecks : List Nat → Option RateRecord → List RateOutcome × Option RateRecord
  | [], entry => ([], entry)
  | t :: ts, entry =>
    let step := checkRateLimit t entry
    let rest := runChecks ts (some step.2)
    (step.1 :: rest.1, rest.2)

/-! ### Chat session store (`src/.stack-app/src/app/api/chats/store.ts`)
and the message/attachment data model (`src/types`). -/

/-- A validated `Attachment`. -/
structure Attachment where
  type : String
  name : String
  data : String
  mimeType : Option String
deriving DecidableEq

/-- The `timestamp` a validator assigns: `new Date(s)` from a string, or
`new Date()` / `new Date(Date.now())` at validation time. -/
inductive TimestampVal where
  | parsedFrom (s : String)
  | atMillis (nowMs : Nat)
deriving DecidableEq

/-- A validated `Message`.  `codeContext` is passed through opaquely. -/
structure Message where
  id : String
  role : String
  content : String
  timestamp : TimestampVal
  codeContext : Option JValue
  attachments : Option (List Attachment)

/-- A `ChatSession`.  The opaque `randomUUID()` identifier is modelled by
a fresh-id `Nat` supply; ISO-8601 timestamps by epoch milliseconds
(`toISOString` and re-parsing via `new Date(..).getTime()` are mutually
inverse and order-preserving on that range). -/
structure ChatSession where
  id : Nat
  title : String
  messages : List Message
  createdAt : Nat
  updatedAt : Nat

/-- `CreateChatBody`. -/
structure CreateChatBody where
  title : Option String
  messages : Option (List Message)

/-- `UpdateChatBody`. -/
structure UpdateChatBody where
  title : Option String
  messages : Option (List Message)

/-- `ChatListItem`. -/
structure ChatListItem where
  id : Nat
  title : String
  createdAt : Nat
  updatedAt : Nat
  messageCount : Nat

/-- The module-level `store` map plus the fresh-id supply for
`randomUUID()`.  `entries` keeps JavaScript `Map` insertion order. -/
structure StoreState where
  entries : List (Nat × ChatSession)
  nextId : Nat

/-- `Map.prototype.get` -/
def mapGet (entries : List (Nat × ChatSession)) (k : Nat) : Option ChatSession :=
  (entries.find? (fun p => p.1 == k)).map Prod.snd

/-- `Map.prototype.set`: replace in place when the key exists, append
otherwise (JavaScript `Map` keeps the original insertion position). -/
def mapSet (entries : List (Nat × ChatSession)) (k : Nat) (v : ChatSession) :
    List (Nat × ChatSession) :=
  if entries.any (fun p => p.1 == k) then
    entries.map (fun p => if p.1 == k then (k, v) else p)
  else
    entries ++ [(k, v)]

/-- `toListItem` -/
def toListItem (session : ChatSession) : ChatListItem :=
  ⟨session.id, session.title, session.createdAt, session.updatedAt,
    session.messages.length⟩

/-- `getChat` -/
def getChat (st : StoreState) (id : Nat) : Option ChatSession :=
  mapGet st.entries id

/-- `createChat`, with `now()` explicit. -/
def createChat (t : Nat) (body : CreateChatBody) (st : StoreState) :
    ChatSession × StoreState :=
  let id := st.nextId
  let session : ChatSession :=
    ⟨id, body.title.getD "New Chat", body.messages.getD [], t, t⟩
  (session, ⟨mapSet st.entries id session, st.nextId + 1⟩)

/-- `updateChat`, with `now()` explicit: spread of the existing session,
conditionally overridden `title`/`messages`, refreshed `updatedAt`. -/
def updateChat (t : Nat) (id : Nat) (body : UpdateChatBody) (st : StoreState) :
    Option ChatSession × StoreState :=
  match mapGet st.entries id with
  | none => (none, st)
  | some existing =>
    let session : ChatSession :=
      { existing with
        title := body.title.getD existing.title
        messages := body.messages.getD existing.messages
        updatedAt := t }
    (some session, ⟨mapSet st.entries id session, st.nextId⟩)

/-- `deleteChat`: `Map.prototype.delete` result plus the new state. -/
def deleteChat (id : Nat) (st : StoreState) : Bool × StoreState :=
  (st.entries.any (fun p => p.1 == id),
    ⟨st.entries.filter (fun p => !(p.1 == id)), st.nextId⟩)

/-- The comparator of `listChats`: `(a, b) => b.updatedAt - a.updatedAt`,
i.e. `a` may precede `b` iff `b.updatedAt ≤ a.updatedAt`; JavaScript
`Array.prototype.sort` is stable, as is `List.mergeSort`. -/
def chatSortLE (a b : ChatSession) : Bool :=
  b.updatedAt ≤ a.updatedAt

/-- `listChats` -/
def listChats (st : StoreState) : List ChatListItem :=
  (((st.entries.map Prod.snd).mergeSort chatSortLE).map toListItem)

/-! ### Request validators for the chats endpoints
(`validateCreateBody` in `src/unnamed/part_001`,
`validateUpdateBody` in `src/unnamed/part_000`; the two bodies of message
validation are textually identical in the source). -/

/-- The attachment filter body: malformed entries map to `null` and are
dropped by `.filter(Boolean)`. -/
def parseAttachment (a : JValue) : Option Attachment :=
  if !(jsTruthy a && jsTypeofObject a) then none
  else
    match getField a "type" with
    | some (.jstr ty) =>
      if ty = "image" || ty = "file" then
        match getField a "name", getField a "data" with
        | some (.jstr nm), some (.jstr dt) =>
          some ⟨ty, nm, dt,
            match getField a "mimeType" with
            | some (.jstr mt) => some mt
            | _ => none⟩
        | _, _ => none
      else none
    | _ => none

/-- Validation of one element of `messages` (the `.map` body shared by
both validators), with `Date.now()` explicit.  Error message texts are
kept modulo quoting. -/
def validateMessageAt (nowMs : Nat) (i : Nat) (m : JValue) : Except ApiError Message :=
  if !(jsTruthy m && jsTypeofObject m) then
    .error (Errors.validation ("messages[" ++ toString i ++ "] must be an object") none)
  else
    match getField m "role" with
    | some (.jstr role) =>
      if role = "user" || role = "assistant" || role = "system" then
        match getField m "content" with
        | some (.jstr content) =>
          .ok
            { id :=
                match getField m "id" with
                | some (.jstr s) => s
                | _ => "msg-" ++ toString nowMs ++ "-" ++ toString i
              role := role
              content := content
              timestamp :=
                match getField m "timestamp" with
                | some tv =>
                  if jsTruthy tv then
                    match tv with
                    | .jstr s => TimestampVal.parsedFrom s
                    | _ => TimestampVal.atMillis nowMs
                  else TimestampVal.atMillis nowMs
                | none => TimestampVal.atMillis nowMs
              codeContext :=
                match getField m "codeContext" with
                | some cc => if jsTruthy cc && jsTypeofObject cc then some cc else none
                | none => none
              attachments :=
                match getField m "attachments" with
                | some (.jarr l) =>
                  if l.length > 0 then some (l.filterMap parseAttachment) else none
                | _ => none }
        | _ =>
          .error (Errors.validation
            ("messages[" ++ toString i ++ "].content must be a string") none)
      else
        .error (Errors.validation
          ("messages[" ++ toString i ++ "].role must be user, assistant, or system") none)
    | _ =>
      .error (Errors.validation
        ("messages[" ++ toString i ++ "].role must be user, assistant, or system") none)

/-- The `messages.map(...)` loop: first failure wins. -/
def validateMessages (nowMs : Nat) : List JValue → Nat → Except ApiError (List Message)
  | [], _ => .ok []
  | m :: rest, i =>
    match validateMessageAt nowMs i m with
    | .error e => .error e
    | .ok msg =>
      match validateMessages nowMs rest (i + 1) with
      | .error e => .error e
      | .ok msgs => .ok (msg :: msgs)

/-- The `title` step of both validators: reject a present non-string,
trim, replace an empty trim result with `New Chat`. -/
def validateTitleField (body : JValue) : Except ApiError (Option String) :=
  match getField body "title" with
  | none => .ok none
  | some (.jstr s) => .ok (some (if jsTrim s = "" then "New Chat" else jsTrim s))
  | some _ => .error (Errors.validation "title must be a string" none)

/-- The `messages` step of both validators. -/
def validateMessagesField (nowMs : Nat) (body : JValue) :
    Except ApiError (Option (List Message)) :=
  match getField body "messages" with
  | none => .ok none
  | some (.jarr l) =>
    match validateMessages nowMs l 0 with
    | .error e => .error e
    | .ok msgs => .ok (some msgs)
  | some _ => .error (Errors.validation "messages must be an array" none)

/-- `validateCreateBody` -/
def validateCreateBody (nowMs : Nat) (body : JValue) : Except ApiError CreateChatBody :=
  if !(jsTruthy body && jsTypeofObject body) then
    .error (Errors.validation "Request body must be an object" none)
  else
    match validateTitleField body with
    | .error e => .error e
    | .ok title =>
      match validateMessagesField nowMs body with
      | .error e => .error e
      | .ok messages => .ok ⟨title, messages⟩

/-- `validateUpdateBody` -/
def validateUpdateBody (nowMs : Nat) (body : JValue) : Except ApiError UpdateChatBody :=
  if !(jsTruthy body && jsTypeofObject body) then
    .error (Errors.validation "Request body must be an object" none)
  else
    match validateTitleField body with
    | .error e => .error e
    | .ok title =>
      match validateMessagesField nowMs body with
      | .error e => .error e
      | .ok messages => .ok ⟨title, messages⟩

/-! ### Chat generation route and health check
(`src/sideview-app/src/app/api/chat/route.ts`,
`isClaudeModel`/`isOpenAIModel` from the chat validator module). -/

/-- `SUPPORTED_MODELS` -/
def SUPPORTED_MODELS : List String := ["claude-3-5-sonnet", "gpt-4o", "gpt-4o-mini"]

/-- `isClaudeModel`: `model.startsWith('claude')`. -/
def isClaudeModel (model : String) : Bool :=
  "claude".data.isPrefixOf model.data

/-- `isOpenAIModel`: `model.startsWith('gpt')`. -/
def isOpenAIModel (model : String) : Bool :=
  "gpt".data.isPrefixOf model.data

/-- Which provider secrets are present in the environment
(`isAnthropicConfigured` / `isOpenAIConfigured`). -/
structure ProviderFlags where
  anthropic : Bool
  openai : Bool

/-- Observable outcome of the `POST /api/chat` handler after a request
passed validation: HTTP status, error code if any, and which provider
client was invoked (`stream*Response` or `get*Response`). -/
structure ChatDispatchOutcome where
  status : Nat
  errorCode : Option String
  anthropicInvoked : Bool
  openaiInvoked : Bool
deriving DecidableEq

/-- The provider-configuration gate and dispatch of `POST` (route lines
after validation): first the two `modelNotAvailable` gates, then the
stream / non-stream branch on the model family. -/
def chatPostDispatch (flags : ProviderFlags) (model : String) (stream : Bool) :
    ChatDispatchOutcome :=
  if isClaudeModel model && !flags.anthropic then
    ⟨400, some "MODEL_NOT_AVAILABLE", false, false⟩
  else if isOpenAIModel model && !flags.openai then
    ⟨400, some "MODEL_NOT_AVAILABLE", false, false⟩
  else if stream then
    if isClaudeModel model then ⟨200, none, true, false⟩
    else ⟨200, none, false, true⟩
  else
    if isClaudeModel model then ⟨200, none, true, false⟩
    else ⟨200, none, false, true⟩

/-- The health `GET` handler: overall status string and HTTP status
code. -/
def healthGET (flags : ProviderFlags) : String × Nat :=
  let claudeAvailable := flags.anthropic
  let openaiAvailable := flags.openai
  let status :=
    if !claudeAvailable && !openaiAvailable then "unhealthy"
    else if !claudeAvailable || !openaiAvailable then "degraded"
    else "healthy"
  (status, if status = "unhealthy" then 503 else 200)

/-- Whether a message element carries a `role` field that is a string in
the accepted set (the check of the validators). -/
def roleOk (m : JValue) : Bool :=
  match getField m "role" with
  | some (.jstr role) => role = "user" || role = "assistant" || role = "system"
  | _ => false

/-- Whether a message element carries a string `content` field. -/
def contentOk (m : JValue) : Bool :=
  match getField m "content" with
  | some (.jstr _) => true
  | _ => false

/-- A 400-class validation failure, as produced by `Errors.validation`. -/
def failsValidation {α : Type} (r : Except ApiError α) : Prop :=
  ∃ e, r = .error e ∧ e.status = 400 ∧ e.code = "VALIDATION_ERROR"

/-! ## Theorems -/

/-! ### Stream framing lemmas (claim C1) -/

theorem anthropicLoop_eq_deltas (events : List AnthropicEvent) :
    anthropicLoop events = (anthropicDeltas events).map jsonTextRecord := by
  induction events with
  | nil => rfl
  | cons e rest ih =>
    cases e with
    | otherEvent =>
      simpa [anthropicLoop, anthropicDeltas, extractAnthropicText] using ih
    | contentBlockDelta t? =>
      cases t? with
      | none => simpa [anthropicLoop, anthropicDeltas, extractAnthropicText] using ih
      | some t =>
        by_cases ht : t = "" <;>
          simp [anthropicLoop, anthropicDeltas, extractAnthropicText, ht, ih]

theorem jsonTextRecord_take9 (t : String) :
    (jsonTextRecord t).data.take 9 = "data: \x7b\"t".data := rfl

theorem jsonErrorRecord_take9 (m : String) :
    (jsonErrorRecord m).data.take 9 = "data: \x7b\"e".data := rfl

theorem jsonTextRecord_ne_doneRecord (t : String) : jsonTextRecord t ≠ doneRecord := by
  intro h
  have h9 : (jsonTextRecord t).data.take 9 = doneRecord.data.take 9 := by rw [h]
  rw [jsonTextRecord_take9] at h9
  exact absurd h9 (by decide)

theorem jsonErrorRecord_ne_doneRecord (m : String) : jsonErrorRecord m ≠ doneRecord := by
  intro h
  have h9 : (jsonErrorRecord m).data.take 9 = doneRecord.data.take 9 := by rw [h]
  rw [jsonErrorRecord_take9] at h9
  exact absurd h9 (by decide)

theorem jsonTextRecord_ne_jsonErrorRecord (t m : String) :
    jsonTextRecord t ≠ jsonErrorRecord m := by
  intro h
  have h9 : (jsonTextRecord t).data.take 9 = (jsonErrorRecord m).data.take 9 := by rw [h]
  rw [jsonTextRecord_take9, jsonErrorRecord_take9] at h9
  exact absurd h9 (by decide)

theorem count_doneRecord_in_textRecords (ds : List String) :
    (ds.map jsonTextRecord).count doneRecord = 0 := by
  rw [List.count_eq_zero]
  intro hmem
  obtain ⟨d, _, hd⟩ := List.mem_map.1 hmem
  exact jsonTextRecord_ne_doneRecord d hd

theorem count_errorRecord_in_textRecords (ds : List String) (m : String) :
    (ds.map jsonTextRecord).count (jsonErrorRecord m) = 0 := by
  rw [List.count_eq_zero]
  intro hmem
  obtain ⟨d, _, hd⟩ := List.mem_map.1 hmem
  exact jsonTextRecord_ne_jsonErrorRecord d m hd

theorem openAILoop_none_eq (chunks : List OpenAIChunk) :
    openAILoop chunks none = (openAIDeltas chunks).map jsonTextRecord ++ [doneRecord] := by
  induction chunks with
  | nil => rfl
  | cons c rest ih =>
    cases hb : openAIBreaks c <;> cases hext : extractOpenAIText c <;>
      simp [openAILoop, openAIDeltas, hb, hext, ih, terminalRecord]

theorem openAILoop_some_eq (chunks : List OpenAIChunk) (ex : JsThrown)
    (h : openAIStopsEarly chunks = false) :
    openAILoop chunks (some ex) =
      (openAIDeltas chunks).map jsonTextRecord ++
        [jsonErrorRecord (thrownStreamMessage ex)] := by
  induction chunks with
  | nil => rfl
  | cons c rest ih =>
    rw [openAIStopsEarly, Bool.or_eq_false_iff] at h
    cases hext : extractOpenAIText c <;>
      simp [openAILoop, openAIDeltas, h.1, hext, ih h.2, terminalRecord]

/-- Claim C1: for every finite upstream sequence, each stream adapter
emits one `data:` text record per extracted text delta, in order; on
normal completion the output ends with exactly one `data: [DONE]` record;
if the upstream iteration raises, the records emitted so far are followed
by exactly one `data:` error record, which is last, and no `[DONE]`
follows it.  (The OpenAI adapter reaches the raise only when it has not
already stopped on a `stop`/`length` finish reason.) -/
theorem stream_adapter_framing (events : List AnthropicEvent)
    (chunks : List OpenAIChunk) (ex : JsThrown) :
    (createAnthropicStream events none =
      (anthropicDeltas events).map jsonTextRecord ++ [doneRecord]) ∧
    ((createAnthropicStream events none).count doneRecord = 1) ∧
    (createAnthropicStream events (some ex) =
      (anthropicDeltas events).map jsonTextRecord ++
        [jsonErrorRecord (thrownStreamMessage ex)]) ∧
    (doneRecord ∉ createAnthropicStream events (some ex)) ∧
    ((createAnthropicStream events (some ex)).count
      (jsonErrorRecord (thrownStreamMessage ex)) = 1) ∧
    ((createAnthropicStream events (some ex)).getLast? =
      some (jsonErrorRecord (thrownStreamMessage ex))) ∧
    (createOpenAIStream chunks none =
      (openAIDeltas chunks).map jsonTextRecord ++ [doneRecord]) ∧
    ((createOpenAIStream chunks none).count doneRecord = 1) ∧
    (openAIStopsEarly chunks = false →
      createOpenAIStream chunks (some ex) =
        (openAIDeltas chunks).map jsonTextRecord ++
          [jsonErrorRecord (thrownStreamMessage ex)] ∧
      doneRecord ∉ createOpenAIStream chunks (some ex) ∧
      (createOpenAIStream chunks (some ex)).count
        (jsonErrorRecord (thrownStreamMessage ex)) = 1 ∧
      (createOpenAIStream chunks (some ex)).getLast? =
        some (jsonErrorRecord (thrownStreamMessage ex))) := by
  have hA : createAnthropicStream events none =
      (anthropicDeltas events).map jsonTextRecord ++ [doneRecord] := by
    simp [createAnthropicStream, terminalRecord, anthropicLoop_eq_deltas]
  have hAerr : createAnthropicStream events (some ex) =
      (anthropicDeltas events).map jsonTextRecord ++
        [jsonErrorRecord (thrownStreamMessage ex)] := by
    simp [createAnthropicStream, terminalRecord, anthropicLoop_eq_deltas]
  have hO : createOpenAIStream chunks none =
      (openAIDeltas chunks).map jsonTextRecord ++ [doneRecord] :=
    openAILoop_none_eq chunks
  refine ⟨hA, ?_, hAerr, ?_, ?_, ?_, hO, ?_, ?_⟩
  · rw [hA, List.count_append, count_doneRecord_in_textRecords]
    simp
  · rw [hAerr]
    intro hmem
    rcases List.mem_append.1 hmem with hmem | hmem
    · obtain ⟨d, _, hd⟩ := List.mem_map.1 hmem
      exact jsonTextRecord_ne_doneRecord d hd
    · rcases List.mem_singleton.1 hmem with h
      exact jsonErrorRecord_ne_doneRecord _ h.symm
  · rw [hAerr, List.count_append, count_errorRecord_in_textRecords]
    simp
  · rw [hAerr]
    exact List.getLast?_concat _
  · rw [hO, List.count_append, count_doneRecord_in_textRecords]
    simp
  · intro hstop
    have hOerr : createOpenAIStream chunks (some ex) =
        (openAIDeltas chunks).map jsonTextRecord ++
          [jsonErrorRecord (thrownStreamMessage ex)] :=
      openAILoop_some_eq chunks ex hstop
    refine ⟨hOerr, ?_, ?_, ?_⟩
    · rw [hOerr]
      intro hmem
      rcases List.mem_append.1 hmem with hmem | hmem
      · obtain ⟨d, _, hd⟩ := List.mem_map.1 hmem
        exact jsonTextRecord_ne_doneRecord d hd
      · rcases List.mem_singleton.1 hmem with h
        exact jsonErrorRecord_ne_doneRecord _ h.symm
    · rw [hOerr, List.count_append, count_errorRecord_in_textRecords]
      simp
    · rw [hOerr]
      exact List.getLast?_concat _

/-- Witness for C1 at a concrete upstream run: one OpenAI chunk without a
finish reason followed by a raised error yields one text record then the
error record. -/
theorem stream_adapter_framing_check :
    createOpenAIStream [⟨[⟨some ⟨some "a"⟩, none⟩]⟩] (some (JsThrown.err "boom")) =
      [jsonTextRecord "a", jsonErrorRecord "boom"] := by
  have h := (stream_adapter_framing [] [⟨[⟨some ⟨some "a"⟩, none⟩]⟩]
    (JsThrown.err "boom")).2.2.2.2.2.2.2.2 rfl
  rw [h.1]
  rfl

/-- Claim C10: the health check returns HTTP 503 exactly when neither
provider secret is configured (status `unhealthy`); exactly one
configured gives 200 with `degraded`; both give 200 with `healthy`. -/
theorem healthGET_status_taxonomy (flags : ProviderFlags) :
    ((healthGET flags).2 = 503 ↔ flags.anthropic = false ∧ flags.openai = false) ∧
    (flags.anthropic = false ∧ flags.openai = false →
      (healthGET flags).1 = "unhealthy") ∧
    (flags.anthropic ≠ flags.openai →
      (healthGET flags).2 = 200 ∧ (healthGET flags).1 = "degraded") ∧
    (flags.anthropic = true ∧ flags.openai = true →
      (healthGET flags).2 = 200 ∧ (healthGET flags).1 = "healthy") := by
  cases flags with
  | mk a o => cases a <;> cases o <;> decide

/-- Witness for C10 at a concrete partially configured deployment. -/
theorem healthGET_status_taxonomy_check :
    (healthGET ⟨true, false⟩).2 = 200 ∧ (healthGET ⟨true, false⟩).1 = "degraded" :=
  (healthGET_status_taxonomy ⟨true, false⟩).2.2.1 (by decide)

/-- Claim C4: a validated request naming a model whose provider secret is
absent yields 400 `MODEL_NOT_AVAILABLE` and invokes neither provider
client. -/
theorem chatPostDispatch_model_not_available (flags : ProviderFlags) (model : String)
    (stream : Bool) (hmem : model ∈ SUPPORTED_MODELS)
    (h : (isClaudeModel model = true ∧ flags.anthropic = false) ∨
         (isOpenAIModel model = true ∧ flags.openai = false)) :
    chatPostDispatch flags model stream =
      ⟨400, some "MODEL_NOT_AVAILABLE", false, false⟩ := by
  cases flags with
  | mk a o =>
    simp only [SUPPORTED_MODELS, List.mem_cons, List.mem_singleton,
      List.not_mem_nil, or_false] at hmem
    rcases hmem with rfl | rfl | rfl <;>
      rcases h with ⟨hc, rfl⟩ | ⟨ho, rfl⟩ <;>
      first
        | exact absurd hc (by decide)
        | exact absurd ho (by decide)
        | rfl

/-- Witness for C4: a Claude model with the Anthropic key absent. -/
theorem chatPostDispatch_model_not_available_check :
    chatPostDispatch ⟨false, true⟩ "claude-3-5-sonnet" true =
      ⟨400, some "MODEL_NOT_AVAILABLE", false, false⟩ :=
  chatPostDispatch_model_not_available ⟨false, true⟩ "claude-3-5-sonnet" true
    (by decide) (Or.inl ⟨rfl, rfl⟩)

/-- Claim C3, counterexample: an unrecognized error message is preserved
in the `message` field of the 500 response, and the `details` field is
absent — not "preserved only in the details field" as claimed. -/
theorem handleError_unrecognized_message_in_message_field :
    handleError (JsThrown.err "upstream exploded") =
      ⟨"upstream exploded", 500, "INTERNAL_ERROR", none⟩ := rfl

/-- Claim C3 (amended): `handleError` maps a message containing
`rate limit`/`429` (lower-cased) to the 429 `RATE_LIMIT_EXCEEDED` error;
otherwise `api key`/`authentication`/`401` to the 401 `UNAUTHORIZED`
error; otherwise `timeout`/`timed out` to the 504 `TIMEOUT` error; any
unrecognized `Error` becomes the 500 `INTERNAL_ERROR` whose message field
is the original message and whose details field is absent. -/
theorem handleError_taxonomy (m : String) :
    ((jsIncludes (jsToLower m) "rate limit" || jsIncludes (jsToLower m) "429") = true →
      handleError (JsThrown.err m) = Errors.rateLimitExceeded none) ∧
    ((jsIncludes (jsToLower m) "rate limit" || jsIncludes (jsToLower m) "429") = false →
      (jsIncludes (jsToLower m) "api key" || jsIncludes (jsToLower m) "authentication" ||
        jsIncludes (jsToLower m) "401") = true →
      handleError (JsThrown.err m) = Errors.unauthorized "Invalid or missing API key") ∧
    ((jsIncludes (jsToLower m) "rate limit" || jsIncludes (jsToLower m) "429") = false →
      (jsIncludes (jsToLower m) "api key" || jsIncludes (jsToLower m) "authentication" ||
        jsIncludes (jsToLower m) "401") = false →
      (jsIncludes (jsToLower m) "timeout" || jsIncludes (jsToLower m) "timed out") = true →
      handleError (JsThrown.err m) = ⟨"Request timed out", 504, "TIMEOUT", none⟩) ∧
    ((jsIncludes (jsToLower m) "rate limit" || jsIncludes (jsToLower m) "429") = false →
      (jsIncludes (jsToLower m) "api key" || jsIncludes (jsToLower m) "authentication" ||
        jsIncludes (jsToLower m) "401") = false →
      (jsIncludes (jsToLower m) "timeout" || jsIncludes (jsToLower m) "timed out") = false →
      handleError (JsThrown.err m) = Errors.internal m none) := by
  refine ⟨fun h1 => ?_, fun h1 h2 => ?_, fun h1 h2 h3 => ?_, fun h1 h2 h3 => ?_⟩
  · simp [handleError, h1]
  · simp [handleError, h1, h2]
  · simp [handleError, h1, h2, h3]
  · simp [handleError, h1, h2, h3]

/-- Witness for C3 at a concrete timeout-flavoured message. -/
theorem handleError_taxonomy_check :
    handleError (JsThrown.err "Connection timeout") =
      ⟨"Request timed out", 504, "TIMEOUT", none⟩ :=
  (handleError_taxonomy "Connection timeout").2.2.1 rfl rfl rfl

/-! ### Rate limiter lemmas (claim C2) -/

theorem checkRateLimit_inWindow (now c R : Nat) (h : now ≤ R) :
    checkRateLimit now (some ⟨c, R⟩) =
      if c < RATE_LIMIT then
        (⟨true, RATE_LIMIT - (c + 1), R⟩, ⟨c + 1, R⟩)
      else (⟨false, 0, R⟩, ⟨c, R⟩) := by
  have hngt : ¬ now > R := Nat.not_lt.2 h
  by_cases hc : c < RATE_LIMIT
  · simp [checkRateLimit, hngt, hc, Nat.not_le.2 hc]
  · simp [checkRateLimit, hngt, hc, Nat.not_lt.1 hc]

theorem runChecks_inWindow_get (ts : List Nat) (R : Nat) :
    ∀ c, (∀ t ∈ ts, t ≤ R) → ∀ i, i < ts.length →
      (runChecks ts (some ⟨c, R⟩)).1[i]? =
        some (if c + i < RATE_LIMIT
          then ⟨true, RATE_LIMIT - (c + i + 1), R⟩
          else ⟨false, 0, R⟩) := by
  induction ts with
  | nil =>
    intro c h i hi
    simp at hi
  | cons t ts ih =>
    intro c h i hi
    have ht : t ≤ R := h t (List.mem_cons_self t ts)
    have hrest : ∀ t2 ∈ ts, t2 ≤ R := fun t2 h2 => h t2 (List.mem_cons_of_mem t h2)
    by_cases hc : c < RATE_LIMIT
    · rw [runChecks]
      simp only [checkRateLimit_inWindow t c R ht, if_pos hc]
      cases i with
      | zero => simp [hc]
      | succ j =>
        have hj : j < ts.length := by simpa using hi
        have hrec := ih (c + 1) hrest j hj
        simp only [List.getElem?_cons_succ]
        rw [hrec, show c + 1 + j = c + (j + 1) from by omega]
    · rw [runChecks]
      simp only [checkRateLimit_inWindow t c R ht, if_neg hc]
      cases i with
      | zero =>
        simp only [List.getElem?_cons_zero]
        rw [if_neg (by omega)]
      | succ j =>
        have hj : j < ts.length := by simpa using hi
        have hrec := ih c hrest j hj
        simp only [List.getElem?_cons_succ]
        rw [hrec, if_neg (by omega), if_neg (by omega)]

/-- Claim C2: `checkRateLimit` is a fixed window (60 s, quota 30): a check
with no record or an expired window starts a fresh window with count 1
and succeeds; within an unexpired window the count is incremented and the
check succeeds iff the pre-increment count was below quota (denials have
remaining 0); starting fresh, the first 30 checks of a window succeed and
the 31st and later are denied with remaining 0; after expiry the next
check succeeds again. -/
theorem checkRateLimit_fixed_window (t0 now : Nat) (entry : RateRecord) (ts : List Nat) :
    (checkRateLimit t0 none =
      (⟨true, RATE_LIMIT - 1, t0 + RATE_WINDOW⟩, ⟨1, t0 + RATE_WINDOW⟩)) ∧
    (now > entry.resetAt →
      checkRateLimit now (some entry) =
        (⟨true, RATE_LIMIT - 1, now + RATE_WINDOW⟩, ⟨1, now + RATE_WINDOW⟩)) ∧
    (now ≤ entry.resetAt →
      (checkRateLimit now (some entry)).1.allowed = decide (entry.count < RATE_LIMIT) ∧
      (checkRateLimit now (some entry)).2.count =
        (if entry.count < RATE_LIMIT then entry.count + 1 else entry.count) ∧
      (checkRateLimit now (some entry)).2.resetAt = entry.resetAt ∧
      (¬ entry.count < RATE_LIMIT → (checkRateLimit now (some entry)).1.remaining = 0)) ∧
    ((∀ t ∈ ts, t ≤ t0 + RATE_WINDOW) → ∀ i, i < ts.length →
      (runChecks ts (some (checkRateLimit t0 none).2)).1[i]? =
        some (if i + 2 ≤ RATE_LIMIT
          then ⟨true, RATE_LIMIT - (i + 2), t0 + RATE_WINDOW⟩
          else ⟨false, 0, t0 + RATE_WINDOW⟩)) := by
  refine ⟨rfl, fun h => ?_, fun h => ?_, fun hts i hi => ?_⟩
  · simp [checkRateLimit, h]
  · cases entry with
    | mk c R =>
      rw [checkRateLimit_inWindow now c R h]
      by_cases hc : c < RATE_LIMIT <;> simp [hc]
  · have hstep : (checkRateLimit t0 none).2 = ⟨1, t0 + RATE_WINDOW⟩ := rfl
    rw [hstep]
    have h := runChecks_inWindow_get ts (t0 + RATE_WINDOW) 1 hts i hi
    by_cases hcase : i + 2 ≤ RATE_LIMIT
    · rw [if_pos (show 1 + i < RATE_LIMIT from by omega),
        show RATE_LIMIT - (1 + i + 1) = RATE_LIMIT - (i + 2) from by omega] at h
      rw [h, if_pos hcase]
    · rw [if_neg (show ¬ 1 + i < RATE_LIMIT from by omega)] at h
      rw [h, if_neg hcase]

/-- Witness for C2 at a concrete window: starting fresh at time 0, after
the initial check, the 30th overall check (index 28 of the follow-ups)
succeeds and the 31st (index 29) is denied with remaining 0. -/
theorem checkRateLimit_fixed_window_check :
    (runChecks (List.replicate 31 10) (some (checkRateLimit 0 none).2)).1[28]? =
      some ⟨true, 0, 60000⟩ ∧
    (runChecks (List.replicate 31 10) (some (checkRateLimit 0 none).2)).1[29]? =
      some ⟨false, 0, 60000⟩ := by
  have h := (checkRateLimit_fixed_window 0 0 ⟨0, 0⟩ (List.replicate 31 10)).2.2.2
  have hts : ∀ t ∈ List.replicate 31 10, t ≤ 0 + RATE_WINDOW := by
    intro t ht
    rw [List.eq_of_mem_replicate ht]
    decide
  have h28 := h hts 28 (by simp)
  have h29 := h hts 29 (by simp)
  constructor
  · rw [h28]
    decide
  · rw [h29]
    decide

/-! ### Store map lemmas (claims C5, C6, C7) -/

theorem find?_replaceAll (es : List (Nat × ChatSession)) (k : Nat) (v : ChatSession) :
    (es.map (fun p => if p.1 == k then (k, v) else p)).find? (fun p => p.1 == k) =
      if es.any (fun p => p.1 == k) then some (k, v) else none := by
  induction es with
  | nil => rfl
  | cons p ps ih =>
    rw [List.map_cons, List.any_cons]
    cases hp : (p.1 == k) with
    | true =>
      rw [if_pos rfl, List.find?_cons_of_pos (p := fun (q : Nat × ChatSession) => q.1 == k) _ (by simp),
        Bool.true_or, if_pos rfl]
    | false =>
      rw [if_neg (by simp), List.find?_cons_of_neg (p := fun (q : Nat × ChatSession) => q.1 == k) _ (by simp [hp]),
        ih, Bool.false_or]

theorem find?_append_absent (es : List (Nat × ChatSession)) (k : Nat) (v : ChatSession)
    (h : es.any (fun p => p.1 == k) = false) :
    (es ++ [(k, v)]).find? (fun p => p.1 == k) = some (k, v) := by
  induction es with
  | nil =>
    rw [List.nil_append,
      List.find?_cons_of_pos (p := fun (q : Nat × ChatSession) => q.1 == k) _ (by simp)]
  | cons p ps ih =>
    rw [List.any_cons, Bool.or_eq_false_iff] at h
    rw [List.cons_append,
      List.find?_cons_of_neg (p := fun (q : Nat × ChatSession) => q.1 == k) _ (by simp [h.1]), ih h.2]

theorem mapGet_mapSet_self (es : List (Nat × ChatSession)) (k : Nat) (v : ChatSession) :
    mapGet (mapSet es k v) k = some v := by
  unfold mapGet mapSet
  cases h : es.any (fun p => p.1 == k) with
  | true => rw [if_pos rfl, find?_replaceAll es k v, if_pos h]; rfl
  | false => rw [if_neg (by simp), find?_append_absent es k v h]; rfl

theorem find?_replaceAll_other (es : List (Nat × ChatSession)) (k : Nat) (v : ChatSession)
    (j : Nat) (h : j ≠ k) :
    (es.map (fun p => if p.1 == k then (k, v) else p)).find? (fun p => p.1 == j) =
      es.find? (fun p => p.1 == j) := by
  have hkj : (k == j) = false := by
    simp [Ne.symm h]
  induction es with
  | nil => rfl
  | cons p ps ih =>
    rw [List.map_cons]
    cases hp : (p.1 == k) with
    | true =>
      have hpk : p.1 = k := by simpa using hp
      have hpj : (p.1 == j) = false := by
        simp [hpk, Ne.symm h]
      rw [if_pos rfl, List.find?_cons_of_neg (p := fun (q : Nat × ChatSession) => q.1 == j) _ (by simp [hkj]),
        List.find?_cons_of_neg (p := fun (q : Nat × ChatSession) => q.1 == j) _ (by simp [hpj]), ih]
    | false =>
      rw [if_neg (by simp)]
      cases hpj : (p.1 == j) with
      | true =>
        rw [List.find?_cons_of_pos (p := fun (q : Nat × ChatSession) => q.1 == j) _ hpj,
          List.find?_cons_of_pos (p := fun (q : Nat × ChatSession) => q.1 == j) _ hpj]
      | false =>
        rw [List.find?_cons_of_neg (p := fun (q : Nat × ChatSession) => q.1 == j) _ (by simp [hpj]),
          List.find?_cons_of_neg (p := fun (q : Nat × ChatSession) => q.1 == j) _ (by simp [hpj]), ih]

theorem find?_append_single_other (es : List (Nat × ChatSession)) (k : Nat)
    (v : ChatSession) (j : Nat) (h : j ≠ k) :
    (es ++ [(k, v)]).find? (fun p => p.1 == j) = es.find? (fun p => p.1 == j) := by
  have hkj : (k == j) = false := by
    simp [Ne.symm h]
  induction es with
  | nil =>
    rw [List.nil_append, List.find?_cons_of_neg (p := fun (q : Nat × ChatSession) => q.1 == j) _ (by simp [hkj])]
  | cons p ps ih =>
    rw [List.cons_append]
    cases hpj : (p.1 == j) with
    | true =>
      rw [List.find?_cons_of_pos (p := fun (q : Nat × ChatSession) => q.1 == j) _ hpj,
        List.find?_cons_of_pos (p := fun (q : Nat × ChatSession) => q.1 == j) _ hpj]
    | false =>
      rw [List.find?_cons_of_neg (p := fun (q : Nat × ChatSession) => q.1 == j) _ (by simp [hpj]),
        List.find?_cons_of_neg (p := fun (q : Nat × ChatSession) => q.1 == j) _ (by simp [hpj]), ih]

theorem mapGet_mapSet_other (es : List (Nat × ChatSession)) (k : Nat) (v : ChatSession)
    (j : Nat) (h : j ≠ k) :
    mapGet (mapSet es k v) j = mapGet es j := by
  unfold mapGet mapSet
  cases hany : es.any (fun p => p.1 == k) with
  | true => rw [if_pos rfl, find?_replaceAll_other es k v j h]
  | false => rw [if_neg (by simp), find?_append_single_other es k v j h]

/-- Claim C5: `createChat` returns a session whose title and messages
take the supplied values with defaults `"New Chat"` and `[]`, with
`createdAt = updatedAt` at creation and a fresh id distinct from that of
any later `createChat`; a subsequent `getChat` with the returned id
yields exactly that session. -/
theorem createChat_get_roundtrip (t : Nat) (body : CreateChatBody) (st : StoreState) :
    ((createChat t body st).1.title = body.title.getD "New Chat") ∧
    ((createChat t body st).1.messages = body.messages.getD []) ∧
    ((createChat t body st).1.createdAt = t) ∧
    ((createChat t body st).1.updatedAt = (createChat t body st).1.createdAt) ∧
    (getChat (createChat t body st).2 (createChat t body st).1.id =
      some (createChat t body st).1) ∧
    ((createChat t body st).1.id = st.nextId) ∧
    ((createChat t body st).2.nextId = st.nextId + 1) ∧
    (∀ t2 body2,
      (createChat t2 body2 (createChat t body st).2).1.id ≠
        (createChat t body st).1.id) := by
  refine ⟨rfl, rfl, rfl, rfl, ?_, rfl, rfl, ?_⟩
  · exact mapGet_mapSet_self st.entries st.nextId
      ⟨st.nextId, body.title.getD "New Chat", body.messages.getD [], t, t⟩
  · intro t2 body2
    exact Nat.succ_ne_self st.nextId

/-- Claim C6: `updateChat` on a stored session replaces only the supplied
fields, sets `updatedAt` to the call time (hence non-decreasing under a
monotone clock, strictly increasing when the clock advanced), keeps `id`
and `createdAt`, leaves every other session untouched, and reports
not-found on an unknown id leaving the store unchanged. -/
theorem updateChat_merge_frame (t : Nat) (id : Nat) (body : UpdateChatBody)
    (st : StoreState) :
    (getChat st id = none → updateChat t id body st = (none, st)) ∧
    (∀ old, getChat st id = some old →
      ∃ s, (updateChat t id body st).1 = some s ∧
        s.id = old.id ∧
        s.createdAt = old.createdAt ∧
        s.updatedAt = t ∧
        s.title = body.title.getD old.title ∧
        s.messages = body.messages.getD old.messages ∧
        getChat (updateChat t id body st).2 id = some s ∧
        (∀ j, j ≠ id → getChat (updateChat t id body st).2 j = getChat st j) ∧
        (old.updatedAt ≤ t → old.updatedAt ≤ s.updatedAt) ∧
        (old.updatedAt < t → old.updatedAt < s.updatedAt)) := by
  constructor
  · intro h
    have hm : mapGet st.entries id = none := h
    simp only [updateChat, hm]
  · intro old h
    have hm : mapGet st.entries id = some old := h
    refine ⟨{ old with
        title := body.title.getD old.title
        messages := body.messages.getD old.messages
        updatedAt := t }, ?_, rfl, rfl, rfl, rfl, rfl, ?_, ?_, ?_, ?_⟩
    · simp only [updateChat, hm]
    · show getChat (updateChat t id body st).2 id = _
      simp only [updateChat, hm, getChat]
      exact mapGet_mapSet_self st.entries id _
    · intro j hj
      simp only [updateChat, hm, getChat]
      exact mapGet_mapSet_other st.entries id _ j hj
    · intro hle
      exact hle
    · intro hlt
      exact hlt

/-- Witness for C6 at a concrete one-session store: the merge result, the
refreshed timestamp, and the frame on a different id. -/
theorem updateChat_merge_frame_check :
    ∃ s, (updateChat 9 0 ⟨some "New", none⟩ ⟨[(0, ⟨0, "Old", [], 5, 5⟩)], 1⟩).1 = some s ∧
      s.title = "New" ∧ s.updatedAt = 9 ∧ s.createdAt = 5 ∧ (5 : Nat) < s.updatedAt ∧
      getChat (updateChat 9 0 ⟨some "New", none⟩ ⟨[(0, ⟨0, "Old", [], 5, 5⟩)], 1⟩).2 1 =
        none := by
  have h := (updateChat_merge_frame 9 0 ⟨some "New", none⟩
    ⟨[(0, ⟨0, "Old", [], 5, 5⟩)], 1⟩).2 ⟨0, "Old", [], 5, 5⟩ rfl
  obtain ⟨s, h1, _, h3, h4, h5, _, _, hframe, _, hstrict⟩ := h
  refine ⟨s, h1, ?_, h4, h3, hstrict (by decide), ?_⟩
  · rw [h5]
    rfl
  · rw [hframe 1 (by decide)]
    rfl

/-! ### Sorting lemmas for `listChats` (claim C7) -/

theorem chatSortLE_trans : ∀ (a b c : ChatSession),
    chatSortLE a b → chatSortLE b c → chatSortLE a c := by
  intro a b c hab hbc
  simp only [chatSortLE, decide_eq_true_eq] at *
  omega

theorem chatSortLE_total : ∀ (a b : ChatSession), chatSortLE a b || chatSortLE b a := by
  intro a b
  simp only [chatSortLE, Bool.or_eq_true, decide_eq_true_eq]
  omega

/-- If one element is a strict maximum of `updatedAt` among the values
(every other value being strictly older), it is the head of the sorted
list. -/
theorem mergeSort_head_of_max (vals : List ChatSession) (s : ChatSession)
    (hmem : s ∈ vals) (hall : ∀ v ∈ vals, v = s ∨ v.updatedAt < s.updatedAt) :
    (vals.mergeSort chatSortLE).head? = some s := by
  have hpair := List.sorted_mergeSort chatSortLE_trans chatSortLE_total vals
  have hsmem : s ∈ vals.mergeSort chatSortLE := List.mem_mergeSort.2 hmem
  cases hsort : vals.mergeSort chatSortLE with
  | nil =>
    rw [hsort] at hsmem
    simp at hsmem
  | cons hd tl =>
    rw [hsort] at hsmem hpair
    have hhd : s.updatedAt ≤ hd.updatedAt := by
      rcases List.mem_cons.1 hsmem with heq | htl
      · exact le_of_eq (by rw [heq])
      · have h2 := (List.pairwise_cons.1 hpair).1 s htl
        simpa [chatSortLE] using h2
    have hhdm : hd ∈ vals := by
      have hmem2 : hd ∈ vals.mergeSort chatSortLE := by
        rw [hsort]
        exact List.mem_cons_self hd tl
      exact List.mem_mergeSort.1 hmem2
    have heq : hd = s := by
      rcases hall hd hhdm with heq | hlt2
      · exact heq
      · omega
    rw [heq]
    rfl

/-- After `mapSet` of a session `s` whose `updatedAt` is strictly newer
than every other-keyed entry, `s` is among the stored values and is their
unique maximum. -/
theorem mapSet_values_max (es : List (Nat × ChatSession)) (id : Nat) (s : ChatSession)
    (t : Nat) (hs : s.updatedAt = t)
    (hany : (es.any fun p => p.1 == id) = true)
    (hlt : ∀ p ∈ es, p.1 ≠ id → p.2.updatedAt < t) :
    s ∈ (mapSet es id s).map Prod.snd ∧
    ∀ v ∈ (mapSet es id s).map Prod.snd, v = s ∨ v.updatedAt < s.updatedAt := by
  have hset : mapSet es id s = es.map (fun p => if p.1 == id then (id, s) else p) := by
    unfold mapSet
    rw [if_pos hany]
  obtain ⟨q, hqmem, hqid⟩ := List.any_eq_true.1 hany
  constructor
  · rw [hset]
    refine List.mem_map.2 ⟨(id, s), List.mem_map.2 ⟨q, hqmem, ?_⟩, rfl⟩
    rw [if_pos hqid]
  · intro v hv
    rw [hset] at hv
    obtain ⟨p', hp'mem, hp'snd⟩ := List.mem_map.1 hv
    obtain ⟨p, hpmem, hpf⟩ := List.mem_map.1 hp'mem
    by_cases hpid : (p.1 == id) = true
    · left
      rw [← hp'snd, ← hpf, if_pos hpid]
    · right
      have hne : p.1 ≠ id := by simpa using hpid
      have hlt2 := hlt p hpmem hne
      rw [← hp'snd, ← hpf, if_neg hpid, hs]
      exact hlt2

/-- Claim C7: `listChats` returns one summary per stored session (id,
title, createdAt, updatedAt, message count), sorted by `updatedAt`
descending; updating a session at a time strictly newer than every other
session moves its summary to the front. -/
theorem listChats_sorted_recency (st : StoreState) :
    ((listChats st).length = st.entries.length) ∧
    ((listChats st).Pairwise (fun a b => b.updatedAt ≤ a.updatedAt)) ∧
    ((listChats st).Perm (st.entries.map (fun p => toListItem p.2))) ∧
    (∀ t id body old, getChat st id = some old →
      (∀ p ∈ st.entries, p.1 ≠ id → p.2.updatedAt < t) →
      ∃ s, (updateChat t id body st).1 = some s ∧
        (listChats (updateChat t id body st).2).head? = some (toListItem s)) := by
  refine ⟨?_, ?_, ?_, ?_⟩
  · simp [listChats]
  · have hs := List.sorted_mergeSort chatSortLE_trans chatSortLE_total
      (st.entries.map Prod.snd)
    unfold listChats
    refine List.Pairwise.map toListItem ?_ hs
    intro a b hab
    simpa [chatSortLE, toListItem] using hab
  · have hp := (List.mergeSort_perm (st.entries.map Prod.snd) chatSortLE).map toListItem
    unfold listChats
    simpa [List.map_map, Function.comp] using hp
  · intro t id body old h hlt
    have hm : mapGet st.entries id = some old := h
    have hany : (st.entries.any fun p => p.1 == id) = true := by
      unfold mapGet at hm
      cases hq : st.entries.find? (fun p => p.1 == id) with
      | none =>
        rw [hq] at hm
        simp at hm
      | some q =>
        exact List.any_eq_true.2 ⟨q, List.mem_of_find?_eq_some hq,
          List.find?_some (p := fun (q : Nat × ChatSession) => q.1 == id) hq⟩
    refine ⟨{ old with
        title := body.title.getD old.title
        messages := body.messages.getD old.messages
        updatedAt := t }, by simp only [updateChat, hm], ?_⟩
    have hmax := mapSet_values_max st.entries id
      { old with
        title := body.title.getD old.title
        messages := body.messages.getD old.messages
        updatedAt := t } t rfl hany hlt
    simp only [updateChat, hm, listChats]
    rw [List.head?_map, mergeSort_head_of_max _ _ hmax.1 hmax.2]
    rfl

/-- Witness for C7: two sessions, the older one updated at a strictly
newer time moves to the front of the list. -/
theorem listChats_sorted_recency_check :
    ∃ s, (updateChat 30 0 ⟨none, none⟩
        ⟨[(0, ⟨0, "A", [], 5, 10⟩), (1, ⟨1, "B", [], 6, 20⟩)], 2⟩).1 = some s ∧
      (listChats (updateChat 30 0 ⟨none, none⟩
        ⟨[(0, ⟨0, "A", [], 5, 10⟩), (1, ⟨1, "B", [], 6, 20⟩)], 2⟩).2).head? =
        some (toListItem s) := by
  refine (listChats_sorted_recency
    ⟨[(0, ⟨0, "A", [], 5, 10⟩), (1, ⟨1, "B", [], 6, 20⟩)], 2⟩).2.2.2
    30 0 ⟨none, none⟩ ⟨0, "A", [], 5, 10⟩ rfl ?_
  intro p hp hne
  simp only [List.mem_cons, List.not_mem_nil, or_false] at hp
  rcases hp with rfl | rfl
  · exact absurd rfl hne
  · decide

/-! ### Validator lemmas (claims C8, C9) -/

theorem validateMessageAt_ok_shape (nowMs i : Nat) (m : JValue) (out : Message)
    (h : validateMessageAt nowMs i m = .ok out) :
    roleOk m = true ∧ contentOk m = true := by
  unfold validateMessageAt at h
  by_cases hobj : (!(jsTruthy m && jsTypeofObject m)) = true
  · rw [if_pos hobj] at h
    simp at h
  · rw [if_neg hobj] at h
    cases hrole : getField m "role" with
    | none =>
      simp only [hrole] at h
      simp at h
    | some rv =>
      cases rv with
      | jstr r =>
        simp only [hrole] at h
        by_cases hr : (r = "user" || r = "assistant" || r = "system") = true
        · rw [if_pos hr] at h
          cases hcont : getField m "content" with
          | none =>
            simp only [hcont] at h
            simp at h
          | some cv =>
            cases cv with
            | jstr c =>
              constructor
              · unfold roleOk
                rw [hrole]
                exact hr
              · unfold contentOk
                rw [hcont]
            | jnull => simp only [hcont] at h; simp at h
            | jbool b => simp only [hcont] at h; simp at h
            | jnum n => simp only [hcont] at h; simp at h
            | jarr l => simp only [hcont] at h; simp at h
            | jobj fs => simp only [hcont] at h; simp at h
        · rw [if_neg hr] at h
          simp at h
      | jnull => simp only [hrole] at h; simp at h
      | jbool b => simp only [hrole] at h; simp at h
      | jnum n => simp only [hrole] at h; simp at h
      | jarr l => simp only [hrole] at h; simp at h
      | jobj fs => simp only [hrole] at h; simp at h

theorem validateMessageAt_error_shape (nowMs i : Nat) (m : JValue) (e : ApiError)
    (h : validateMessageAt nowMs i m = .error e) :
    e.status = 400 ∧ e.code = "VALIDATION_ERROR" := by
  unfold validateMessageAt at h
  by_cases hobj : (!(jsTruthy m && jsTypeofObject m)) = true
  · rw [if_pos hobj] at h
    injection h with h1
    rw [← h1]
    exact ⟨rfl, rfl⟩
  · rw [if_neg hobj] at h
    cases hrole : getField m "role" with
    | none =>
      simp only [hrole] at h
      injection h with h1
      rw [← h1]
      exact ⟨rfl, rfl⟩
    | some rv =>
      cases rv with
      | jstr r =>
        simp only [hrole] at h
        by_cases hr : (r = "user" || r = "assistant" || r = "system") = true
        · rw [if_pos hr] at h
          cases hcont : getField m "content" with
          | none =>
            simp only [hcont] at h
            injection h with h1
            rw [← h1]
            exact ⟨rfl, rfl⟩
          | some cv =>
            cases cv with
            | jstr c => simp only [hcont] at h; simp at h
            | jnull =>
              simp only [hcont] at h
              injection h with h1
              rw [← h1]
              exact ⟨rfl, rfl⟩
            | jbool b =>
              simp only [hcont] at h
              injection h with h1
              rw [← h1]
              exact ⟨rfl, rfl⟩
            | jnum n =>
              simp only [hcont] at h
              injection h with h1
              rw [← h1]
              exact ⟨rfl, rfl⟩
            | jarr l =>
              simp only [hcont] at h
              injection h with h1
              rw [← h1]
              exact ⟨rfl, rfl⟩
            | jobj fs =>
              simp only [hcont] at h
              injection h with h1
              rw [← h1]
              exact ⟨rfl, rfl⟩
        · rw [if_neg hr] at h
          injection h with h1
          rw [← h1]
          exact ⟨rfl, rfl⟩
      | jnull =>
        simp only [hrole] at h
        injection h with h1
        rw [← h1]
        exact ⟨rfl, rfl⟩
      | jbool b =>
        simp only [hrole] at h
        injection h with h1
        rw [← h1]
        exact ⟨rfl, rfl⟩
      | jnum n =>
        simp only [hrole] at h
        injection h with h1
        rw [← h1]
        exact ⟨rfl, rfl⟩
      | jarr l =>
        simp only [hrole] at h
        injection h with h1
        rw [← h1]
        exact ⟨rfl, rfl⟩
      | jobj fs =>
        simp only [hrole] at h
        injection h with h1
        rw [← h1]
        exact ⟨rfl, rfl⟩

theorem validateMessages_ok_shape (nowMs : Nat) (l : List JValue) :
    ∀ i outs, validateMessages nowMs l i = .ok outs →
      ∀ m ∈ l, roleOk m = true ∧ contentOk m = true := by
  induction l with
  | nil =>
    intro i outs _ m hm
    simp at hm
  | cons x xs ih =>
    intro i outs h m hm
    unfold validateMessages at h
    cases hx : validateMessageAt nowMs i x with
    | error e =>
      rw [hx] at h
      simp at h
    | ok msg =>
      rw [hx] at h
      cases hxs : validateMessages nowMs xs (i + 1) with
      | error e =>
        rw [hxs] at h
        simp at h
      | ok msgs =>
        rcases List.mem_cons.1 hm with rfl | hm2
        · exact validateMessageAt_ok_shape nowMs i m msg hx
        · exact ih (i + 1) msgs hxs m hm2

theorem validateMessages_error_shape (nowMs : Nat) (l : List JValue) :
    ∀ i e, validateMessages nowMs l i = .error e →
      e.status = 400 ∧ e.code = "VALIDATION_ERROR" := by
  induction l with
  | nil =>
    intro i e h
    simp [validateMessages] at h
  | cons x xs ih =>
    intro i e h
    unfold validateMessages at h
    cases hx : validateMessageAt nowMs i x with
    | error e2 =>
      rw [hx] at h
      injection h with h1
      rw [← h1]
      exact validateMessageAt_error_shape nowMs i x e2 hx
    | ok msg =>
      rw [hx] at h
      cases hxs : validateMessages nowMs xs (i + 1) with
      | error e2 =>
        rw [hxs] at h
        injection h with h1
        rw [← h1]
        exact ih (i + 1) e2 hxs
      | ok msgs =>
        rw [hxs] at h
        simp at h

theorem validateTitleField_error_shape (body : JValue) (e : ApiError)
    (h : validateTitleField body = .error e) :
    e.status = 400 ∧ e.code = "VALIDATION_ERROR" := by
  unfold validateTitleField at h
  cases hget : getField body "title" with
  | none =>
    rw [hget] at h
    simp at h
  | some v =>
    cases v with
    | jstr s =>
      simp only [hget] at h
      simp at h
    | jnull =>
      simp only [hget] at h
      injection h with h1
      rw [← h1]
      exact ⟨rfl, rfl⟩
    | jbool b =>
      simp only [hget] at h
      injection h with h1
      rw [← h1]
      exact ⟨rfl, rfl⟩
    | jnum n =>
      simp only [hget] at h
      injection h with h1
      rw [← h1]
      exact ⟨rfl, rfl⟩
    | jarr l =>
      simp only [hget] at h
      injection h with h1
      rw [← h1]
      exact ⟨rfl, rfl⟩
    | jobj fs =>
      simp only [hget] at h
      injection h with h1
      rw [← h1]
      exact ⟨rfl, rfl⟩

theorem validateMessagesField_error_shape (nowMs : Nat) (body : JValue) (e : ApiError)
    (h : validateMessagesField nowMs body = .error e) :
    e.status = 400 ∧ e.code = "VALIDATION_ERROR" := by
  unfold validateMessagesField at h
  cases hget : getField body "messages" with
  | none =>
    rw [hget] at h
    simp at h
  | some v =>
    cases v with
    | jarr l =>
      simp only [hget] at h
      cases hmsgs : validateMessages nowMs l 0 with
      | error e2 =>
        rw [hmsgs] at h
        injection h with h1
        rw [← h1]
        exact validateMessages_error_shape nowMs l 0 e2 hmsgs
      | ok msgs =>
        rw [hmsgs] at h
        simp at h
    | jnull =>
      simp only [hget] at h
      injection h with h1
      rw [← h1]
      exact ⟨rfl, rfl⟩
    | jbool b =>
      simp only [hget] at h
      injection h with h1
      rw [← h1]
      exact ⟨rfl, rfl⟩
    | jnum n =>
      simp only [hget] at h
      injection h with h1
      rw [← h1]
      exact ⟨rfl, rfl⟩
    | jstr s =>
      simp only [hget] at h
      injection h with h1
      rw [← h1]
      exact ⟨rfl, rfl⟩
    | jobj fs =>
      simp only [hget] at h
      injection h with h1
      rw [← h1]
      exact ⟨rfl, rfl⟩

theorem validateCreateBody_unfold (nowMs : Nat) (fields : List (String × JValue)) :
    validateCreateBody nowMs (.jobj fields) =
      (match validateTitleField (.jobj fields) with
       | .error e => .error e
       | .ok title =>
         match validateMessagesField nowMs (.jobj fields) with
         | .error e => .error e
         | .ok messages => .ok ⟨title, messages⟩) := by
  unfold validateCreateBody
  rw [if_neg (by simp [jsTruthy, jsTypeofObject])]

theorem validateUpdateBody_unfold (nowMs : Nat) (fields : List (String × JValue)) :
    validateUpdateBody nowMs (.jobj fields) =
      (match validateTitleField (.jobj fields) with
       | .error e => .error e
       | .ok title =>
         match validateMessagesField nowMs (.jobj fields) with
         | .error e => .error e
         | .ok messages => .ok ⟨title, messages⟩) := by
  unfold validateUpdateBody
  rw [if_neg (by simp [jsTruthy, jsTypeofObject])]

theorem validateCreateBody_error_shape (nowMs : Nat) (fields : List (String × JValue))
    (e : ApiError) (h : validateCreateBody nowMs (.jobj fields) = .error e) :
    e.status = 400 ∧ e.code = "VALIDATION_ERROR" := by
  rw [validateCreateBody_unfold] at h
  cases ht : validateTitleField (.jobj fields) with
  | error e2 =>
    rw [ht] at h
    injection h with h1
    rw [← h1]
    exact validateTitleField_error_shape _ e2 ht
  | ok title =>
    rw [ht] at h
    cases hm : validateMessagesField nowMs (.jobj fields) with
    | error e2 =>
      rw [hm] at h
      injection h with h1
      rw [← h1]
      exact validateMessagesField_error_shape nowMs _ e2 hm
    | ok messages =>
      rw [hm] at h
      simp at h

theorem validateUpdateBody_error_shape (nowMs : Nat) (fields : List (String × JValue))
    (e : ApiError) (h : validateUpdateBody nowMs (.jobj fields) = .error e) :
    e.status = 400 ∧ e.code = "VALIDATION_ERROR" := by
  rw [validateUpdateBody_unfold] at h
  cases ht : validateTitleField (.jobj fields) with
  | error e2 =>
    rw [ht] at h
    injection h with h1
    rw [← h1]
    exact validateTitleField_error_shape _ e2 ht
  | ok title =>
    rw [ht] at h
    cases hm : validateMessagesField nowMs (.jobj fields) with
    | error e2 =>
      rw [hm] at h
      injection h with h1
      rw [← h1]
      exact validateMessagesField_error_shape nowMs _ e2 hm
    | ok messages =>
      rw [hm] at h
      simp at h

theorem validateCreateBody_ok_parts (nowMs : Nat) (fields : List (String × JValue))
    (r : CreateChatBody) (h : validateCreateBody nowMs (.jobj fields) = .ok r) :
    validateTitleField (.jobj fields) = .ok r.title ∧
    validateMessagesField nowMs (.jobj fields) = .ok r.messages := by
  rw [validateCreateBody_unfold] at h
  cases ht : validateTitleField (.jobj fields) with
  | error e2 =>
    rw [ht] at h
    simp at h
  | ok title =>
    rw [ht] at h
    cases hm : validateMessagesField nowMs (.jobj fields) with
    | error e2 =>
      rw [hm] at h
      simp at h
    | ok messages =>
      rw [hm] at h
      injection h with h1
      rw [← h1]
      exact ⟨rfl, rfl⟩

theorem validateUpdateBody_ok_parts (nowMs : Nat) (fields : List (String × JValue))
    (r : UpdateChatBody) (h : validateUpdateBody nowMs (.jobj fields) = .ok r) :
    validateTitleField (.jobj fields) = .ok r.title ∧
    validateMessagesField nowMs (.jobj fields) = .ok r.messages := by
  rw [validateUpdateBody_unfold] at h
  cases ht : validateTitleField (.jobj fields) with
  | error e2 =>
    rw [ht] at h
    simp at h
  | ok title =>
    rw [ht] at h
    cases hm : validateMessagesField nowMs (.jobj fields) with
    | error e2 =>
      rw [hm] at h
      simp at h
    | ok messages =>
      rw [hm] at h
      injection h with h1
      rw [← h1]
      exact ⟨rfl, rfl⟩

theorem validateCreateBody_nonobject (nowMs : Nat) (body : JValue)
    (hobj : jsTypeofObject body = false) :
    validateCreateBody nowMs body =
      .error (Errors.validation "Request body must be an object" none) := by
  unfold validateCreateBody
  rw [hobj, Bool.and_false]
  rfl

theorem validateUpdateBody_nonobject (nowMs : Nat) (body : JValue)
    (hobj : jsTypeofObject body = false) :
    validateUpdateBody nowMs body =
      .error (Errors.validation "Request body must be an object" none) := by
  unfold validateUpdateBody
  rw [hobj, Bool.and_false]
  rfl

theorem validateTitleField_nonstring (fields : List (String × JValue)) (v : JValue)
    (hget : getField (.jobj fields) "title" = some v) (hnstr : ∀ s2, v ≠ .jstr s2) :
    validateTitleField (.jobj fields) =
      .error (Errors.validation "title must be a string" none) := by
  cases v with
  | jstr s2 => exact absurd rfl (hnstr s2)
  | jnull => simp [validateTitleField, hget]
  | jbool b => simp [validateTitleField, hget]
  | jnum n => simp [validateTitleField, hget]
  | jarr l => simp [validateTitleField, hget]
  | jobj fs => simp [validateTitleField, hget]

theorem validateMessagesField_nonarray (nowMs : Nat) (fields : List (String × JValue))
    (v : JValue) (hget : getField (.jobj fields) "messages" = some v)
    (hnarr : ∀ l2, v ≠ .jarr l2) :
    validateMessagesField nowMs (.jobj fields) =
      .error (Errors.validation "messages must be an array" none) := by
  cases v with
  | jarr l2 => exact absurd rfl (hnarr l2)
  | jnull => simp [validateMessagesField, hget]
  | jbool b => simp [validateMessagesField, hget]
  | jnum n => simp [validateMessagesField, hget]
  | jstr s => simp [validateMessagesField, hget]
  | jobj fs => simp [validateMessagesField, hget]

/-- Claim C8, counterexample: an array body has JavaScript typeof
`object`, passes the body check of both validators, and is accepted as
an empty body instead of being rejected as a non-object. -/
theorem validateBody_array_accepted :
    validateCreateBody 0 (JValue.jarr []) = .ok ⟨none, none⟩ ∧
    validateUpdateBody 0 (JValue.jarr []) = .ok ⟨none, none⟩ :=
  ⟨rfl, rfl⟩

/-- Claim C8 (amended): each of the create-body and update-body
validators fails with a 400-class validation error on a null, boolean,
number, or string body (an array body, whose JavaScript typeof is
`object`, passes the body check and is accepted as having no fields), a
present non-string title, a non-array messages value, a message element
whose role is outside user/assistant/system, or a message element with
non-string content; a title that is present and a string is trimmed, and
an empty string after trimming is replaced with `New Chat`. -/
theorem validators_reject_malformed (nowMs : Nat) (b : Bool) (n : Int) (s : String)
    (fields : List (String × JValue)) (v : JValue) (l : List JValue) (m : JValue) :
    (failsValidation (validateCreateBody nowMs JValue.jnull) ∧
      failsValidation (validateUpdateBody nowMs JValue.jnull)) ∧
    (failsValidation (validateCreateBody nowMs (JValue.jbool b)) ∧
      failsValidation (validateUpdateBody nowMs (JValue.jbool b))) ∧
    (failsValidation (validateCreateBody nowMs (JValue.jnum n)) ∧
      failsValidation (validateUpdateBody nowMs (JValue.jnum n))) ∧
    (failsValidation (validateCreateBody nowMs (JValue.jstr s)) ∧
      failsValidation (validateUpdateBody nowMs (JValue.jstr s))) ∧
    (getField (JValue.jobj fields) "title" = some v → (∀ s2, v ≠ JValue.jstr s2) →
      failsValidation (validateCreateBody nowMs (JValue.jobj fields)) ∧
      failsValidation (validateUpdateBody nowMs (JValue.jobj fields))) ∧
    (getField (JValue.jobj fields) "messages" = some v → (∀ l2, v ≠ JValue.jarr l2) →
      failsValidation (validateCreateBody nowMs (JValue.jobj fields)) ∧
      failsValidation (validateUpdateBody nowMs (JValue.jobj fields))) ∧
    (getField (JValue.jobj fields) "messages" = some (JValue.jarr l) → m ∈ l →
      (roleOk m = false ∨ contentOk m = false) →
      failsValidation (validateCreateBody nowMs (JValue.jobj fields)) ∧
      failsValidation (validateUpdateBody nowMs (JValue.jobj fields))) ∧
    (∀ s2 r, getField (JValue.jobj fields) "title" = some (JValue.jstr s2) →
      validateCreateBody nowMs (JValue.jobj fields) = .ok r →
      r.title = some (if jsTrim s2 = "" then "New Chat" else jsTrim s2)) ∧
    (∀ s2 r2, getField (JValue.jobj fields) "title" = some (JValue.jstr s2) →
      validateUpdateBody nowMs (JValue.jobj fields) = .ok r2 →
      r2.title = some (if jsTrim s2 = "" then "New Chat" else jsTrim s2)) := by
  refine ⟨⟨⟨_, rfl, rfl, rfl⟩, ⟨_, rfl, rfl, rfl⟩⟩,
    ⟨⟨_, validateCreateBody_nonobject nowMs _ rfl, rfl, rfl⟩,
     ⟨_, validateUpdateBody_nonobject nowMs _ rfl, rfl, rfl⟩⟩,
    ⟨⟨_, validateCreateBody_nonobject nowMs _ rfl, rfl, rfl⟩,
     ⟨_, validateUpdateBody_nonobject nowMs _ rfl, rfl, rfl⟩⟩,
    ⟨⟨_, validateCreateBody_nonobject nowMs _ rfl, rfl, rfl⟩,
     ⟨_, validateUpdateBody_nonobject nowMs _ rfl, rfl, rfl⟩⟩,
    ?_, ?_, ?_, ?_, ?_⟩
  · intro hget hnstr
    have h1 : validateCreateBody nowMs (JValue.jobj fields) =
        .error (Errors.validation "title must be a string" none) := by
      rw [validateCreateBody_unfold, validateTitleField_nonstring fields v hget hnstr]
    have h2 : validateUpdateBody nowMs (JValue.jobj fields) =
        .error (Errors.validation "title must be a string" none) := by
      rw [validateUpdateBody_unfold, validateTitleField_nonstring fields v hget hnstr]
    exact ⟨⟨_, h1, rfl, rfl⟩, ⟨_, h2, rfl, rfl⟩⟩
  · intro hget hnarr
    constructor
    · cases hres : validateCreateBody nowMs (JValue.jobj fields) with
      | error e =>
        have hsh := validateCreateBody_error_shape nowMs fields e hres
        exact ⟨e, rfl, hsh.1, hsh.2⟩
      | ok r =>
        exfalso
        have hmf := (validateCreateBody_ok_parts nowMs fields r hres).2
        rw [validateMessagesField_nonarray nowMs fields v hget hnarr] at hmf
        simp at hmf
    · cases hres : validateUpdateBody nowMs (JValue.jobj fields) with
      | error e =>
        have hsh := validateUpdateBody_error_shape nowMs fields e hres
        exact ⟨e, rfl, hsh.1, hsh.2⟩
      | ok r =>
        exfalso
        have hmf := (validateUpdateBody_ok_parts nowMs fields r hres).2
        rw [validateMessagesField_nonarray nowMs fields v hget hnarr] at hmf
        simp at hmf
  · intro hget hmem hbad
    constructor
    · cases hres : validateCreateBody nowMs (JValue.jobj fields) with
      | error e =>
        have hsh := validateCreateBody_error_shape nowMs fields e hres
        exact ⟨e, rfl, hsh.1, hsh.2⟩
      | ok r =>
        exfalso
        have hmf := (validateCreateBody_ok_parts nowMs fields r hres).2
        unfold validateMessagesField at hmf
        simp only [hget] at hmf
        cases hmsgs : validateMessages nowMs l 0 with
        | error e2 =>
          rw [hmsgs] at hmf
          simp at hmf
        | ok outs =>
          have hshape := validateMessages_ok_shape nowMs l 0 outs hmsgs m hmem
          rcases hbad with hb | hb
          · simp [hshape.1] at hb
          · simp [hshape.2] at hb
    · cases hres : validateUpdateBody nowMs (JValue.jobj fields) with
      | error e =>
        have hsh := validateUpdateBody_error_shape nowMs fields e hres
        exact ⟨e, rfl, hsh.1, hsh.2⟩
      | ok r =>
        exfalso
        have hmf := (validateUpdateBody_ok_parts nowMs fields r hres).2
        unfold validateMessagesField at hmf
        simp only [hget] at hmf
        cases hmsgs : validateMessages nowMs l 0 with
        | error e2 =>
          rw [hmsgs] at hmf
          simp at hmf
        | ok outs =>
          have hshape := validateMessages_ok_shape nowMs l 0 outs hmsgs m hmem
          rcases hbad with hb | hb
          · simp [hshape.1] at hb
          · simp [hshape.2] at hb
  · intro s2 r hget hok
    have ht := (validateCreateBody_ok_parts nowMs fields r hok).1
    unfold validateTitleField at ht
    simp only [hget] at ht
    injection ht with h1
    exact h1.symm
  · intro s2 r2 hget hok
    have ht := (validateUpdateBody_ok_parts nowMs fields r2 hok).1
    unfold validateTitleField at ht
    simp only [hget] at ht
    injection ht with h1
    exact h1.symm

/-- Witness for C8: a message element with an invalid role is rejected
by the create validator with a 400 validation error. -/
theorem validators_reject_malformed_check :
    failsValidation (validateCreateBody 3
      (JValue.jobj [("messages", JValue.jarr
        [JValue.jobj [("role", JValue.jstr "wizard"),
          ("content", JValue.jstr "x")]])])) := by
  have h := (validators_reject_malformed 3 true 0 ""
    [("messages", JValue.jarr [JValue.jobj [("role", JValue.jstr "wizard"),
      ("content", JValue.jstr "x")]])]
    JValue.jnull
    [JValue.jobj [("role", JValue.jstr "wizard"), ("content", JValue.jstr "x")]]
    (JValue.jobj [("role", JValue.jstr "wizard"),
      ("content", JValue.jstr "x")])).2.2.2.2.2.2.1
  exact (h rfl (by simp) (Or.inl rfl)).1

theorem validateMessageAt_ok_of (nowMs i : Nat) (m : JValue)
    (hrole : roleOk m = true) (hcont : contentOk m = true) :
    ∃ out, validateMessageAt nowMs i m = .ok out ∧
      out.attachments = (match getField m "attachments" with
        | some (.jarr l) => if l.length > 0 then some (l.filterMap parseAttachment) else none
        | _ => none) := by
  cases m with
  | jobj fields =>
    unfold roleOk at hrole
    cases hget : getField (.jobj fields) "role" with
    | none =>
      rw [hget] at hrole
      simp at hrole
    | some rv =>
      cases rv with
      | jstr r =>
        simp only [hget] at hrole
        unfold contentOk at hcont
        cases hc : getField (.jobj fields) "content" with
        | none =>
          rw [hc] at hcont
          simp at hcont
        | some cv =>
          cases cv with
          | jstr c =>
            have hok : validateMessageAt nowMs i (JValue.jobj fields) =
                .ok ⟨(match getField (JValue.jobj fields) "id" with
                       | some (.jstr s) => s
                       | _ => "msg-" ++ toString nowMs ++ "-" ++ toString i),
                     r, c,
                     (match getField (JValue.jobj fields) "timestamp" with
                      | some tv =>
                        if jsTruthy tv then
                          match tv with
                          | .jstr s => TimestampVal.parsedFrom s
                          | _ => TimestampVal.atMillis nowMs
                        else TimestampVal.atMillis nowMs
                      | none => TimestampVal.atMillis nowMs),
                     (match getField (JValue.jobj fields) "codeContext" with
                      | some cc => if jsTruthy cc && jsTypeofObject cc then some cc else none
                      | none => none),
                     (match getField (JValue.jobj fields) "attachments" with
                      | some (.jarr l) =>
                        if l.length > 0 then some (l.filterMap parseAttachment) else none
                      | _ => none)⟩ := by
              unfold validateMessageAt
              rw [if_neg (by simp [jsTruthy, jsTypeofObject])]
              simp only [hget, hc]
              rw [if_pos hrole]
            exact ⟨_, hok, rfl⟩
          | jnull => simp only [hc] at hcont; simp at hcont
          | jbool b => simp only [hc] at hcont; simp at hcont
          | jnum n => simp only [hc] at hcont; simp at hcont
          | jarr l2 => simp only [hc] at hcont; simp at hcont
          | jobj fs => simp only [hc] at hcont; simp at hcont
      | jnull => simp only [hget] at hrole; simp at hrole
      | jbool b => simp only [hget] at hrole; simp at hrole
      | jnum n => simp only [hget] at hrole; simp at hrole
      | jarr l2 => simp only [hget] at hrole; simp at hrole
      | jobj fs => simp only [hget] at hrole; simp at hrole
  | jnull => simp [roleOk, getField] at hrole
  | jbool b => simp [roleOk, getField] at hrole
  | jnum n => simp [roleOk, getField] at hrole
  | jstr s => simp [roleOk, getField] at hrole
  | jarr l2 => simp [roleOk, getField] at hrole

/-- Claim C9: for a message element whose attachments value is an array,
the create and update validators keep, in order, exactly the well-formed
entries and silently drop each malformed one, without rejecting the
containing message or the request; an entry is kept exactly when it is
an object with type `image` or `file`, a string name, and a string
data. -/
theorem validators_filter_attachments (nowMs i : Nat) (mf : List (String × JValue))
    (l : List JValue) (a : JValue) :
    (roleOk (.jobj mf) = true → contentOk (.jobj mf) = true →
      getField (.jobj mf) "attachments" = some (.jarr l) →
      (∃ out, validateMessageAt nowMs i (.jobj mf) = .ok out ∧
        out.attachments.getD [] = l.filterMap parseAttachment) ∧
      (∃ out r, validateCreateBody nowMs
          (.jobj [("messages", JValue.jarr [JValue.jobj mf])]) = .ok r ∧
        r.messages = some [out] ∧
        out.attachments.getD [] = l.filterMap parseAttachment) ∧
      (∃ out r, validateUpdateBody nowMs
          (.jobj [("messages", JValue.jarr [JValue.jobj mf])]) = .ok r ∧
        r.messages = some [out] ∧
        out.attachments.getD [] = l.filterMap parseAttachment)) ∧
    ((parseAttachment a).isSome = true ↔
      ∃ ty nm dt, getField a "type" = some (.jstr ty) ∧ (ty = "image" ∨ ty = "file") ∧
        getField a "name" = some (.jstr nm) ∧ getField a "data" = some (.jstr dt)) := by
  constructor
  · intro hrole hcont hatt
    have hgetd : ∀ (o : Message),
        o.attachments = (match getField (.jobj mf) "attachments" with
          | some (.jarr l2) =>
            if l2.length > 0 then some (l2.filterMap parseAttachment) else none
          | _ => none) →
        o.attachments.getD [] = l.filterMap parseAttachment := by
      intro o ho
      simp only [hatt] at ho
      cases l with
      | nil =>
        simp at ho
        rw [ho]
        rfl
      | cons x xs =>
        simp at ho
        rw [ho]
        rfl
    obtain ⟨out, hok, hatt2⟩ := validateMessageAt_ok_of nowMs i (.jobj mf) hrole hcont
    obtain ⟨out0, hok0, hatt0⟩ := validateMessageAt_ok_of nowMs 0 (.jobj mf) hrole hcont
    have hmsgs : validateMessages nowMs [JValue.jobj mf] 0 = .ok [out0] := by
      unfold validateMessages
      rw [hok0]
      rfl
    have hmf2 : validateMessagesField nowMs
        (.jobj [("messages", JValue.jarr [JValue.jobj mf])]) = .ok (some [out0]) := by
      unfold validateMessagesField
      simp only [show getField (JValue.jobj [("messages", JValue.jarr [JValue.jobj mf])])
        "messages" = some (JValue.jarr [JValue.jobj mf]) from rfl]
      rw [hmsgs]
    have hcreate : validateCreateBody nowMs
        (.jobj [("messages", JValue.jarr [JValue.jobj mf])]) = .ok ⟨none, some [out0]⟩ := by
      rw [validateCreateBody_unfold]
      simp only [show validateTitleField
        (JValue.jobj [("messages", JValue.jarr [JValue.jobj mf])]) = .ok none from rfl]
      rw [hmf2]
    have hupdate : validateUpdateBody nowMs
        (.jobj [("messages", JValue.jarr [JValue.jobj mf])]) = .ok ⟨none, some [out0]⟩ := by
      rw [validateUpdateBody_unfold]
      simp only [show validateTitleField
        (JValue.jobj [("messages", JValue.jarr [JValue.jobj mf])]) = .ok none from rfl]
      rw [hmf2]
    exact ⟨⟨out, hok, hgetd out hatt2⟩,
      ⟨out0, ⟨none, some [out0]⟩, hcreate, rfl, hgetd out0 hatt0⟩,
      ⟨out0, ⟨none, some [out0]⟩, hupdate, rfl, hgetd out0 hatt0⟩⟩
  · constructor
    · intro hsome
      cases a with
      | jobj fields =>
        unfold parseAttachment at hsome
        rw [if_neg (by simp [jsTruthy, jsTypeofObject])] at hsome
        cases hty : getField (.jobj fields) "type" with
        | none =>
          simp only [hty] at hsome
          simp at hsome
        | some tv =>
          cases tv with
          | jstr ty =>
            simp only [hty] at hsome
            by_cases htyc : (ty = "image" || ty = "file") = true
            · rw [if_pos htyc] at hsome
              cases hnm : getField (.jobj fields) "name" with
              | none =>
                simp [hnm] at hsome
              | some nv =>
                cases hdt : getField (.jobj fields) "data" with
                | none =>
                  cases nv <;> simp [hnm, hdt] at hsome
                | some dv =>
                  cases nv with
                  | jstr nm =>
                    cases dv with
                    | jstr dt =>
                      exact ⟨ty, nm, dt, rfl, by simpa using htyc, rfl, rfl⟩
                    | jnull => simp [hnm, hdt] at hsome
                    | jbool b2 => simp [hnm, hdt] at hsome
                    | jnum n2 => simp [hnm, hdt] at hsome
                    | jarr l2 => simp [hnm, hdt] at hsome
                    | jobj fs2 => simp [hnm, hdt] at hsome
                  | jnull => simp [hnm, hdt] at hsome
                  | jbool b2 => simp [hnm, hdt] at hsome
                  | jnum n2 => simp [hnm, hdt] at hsome
                  | jarr l2 => simp [hnm, hdt] at hsome
                  | jobj fs2 => simp [hnm, hdt] at hsome
            · rw [if_neg htyc] at hsome
              simp at hsome
          | jnull => simp only [hty] at hsome; simp at hsome
          | jbool b2 => simp only [hty] at hsome; simp at hsome
          | jnum n2 => simp only [hty] at hsome; simp at hsome
          | jarr l2 => simp only [hty] at hsome; simp at hsome
          | jobj fs2 => simp only [hty] at hsome; simp at hsome
      | jnull => simp [parseAttachment, jsTruthy, jsTypeofObject] at hsome
      | jbool b2 => simp [parseAttachment, jsTruthy, jsTypeofObject] at hsome
      | jnum n2 => simp [parseAttachment, jsTruthy, jsTypeofObject] at hsome
      | jstr s2 => simp [parseAttachment, jsTruthy, jsTypeofObject] at hsome
      | jarr l2 => simp [parseAttachment, jsTruthy, jsTypeofObject, getField] at hsome
    · rintro ⟨ty, nm, dt, hty, htyc, hnm, hdt⟩
      cases a with
      | jobj fields =>
        unfold parseAttachment
        rw [if_neg (by simp [jsTruthy, jsTypeofObject])]
        simp only [hty, hnm, hdt]
        rw [if_pos (by rcases htyc with h2 | h2 <;> simp [h2])]
        rfl
      | jnull => simp [getField] at hty
      | jbool b2 => simp [getField] at hty
      | jnum n2 => simp [getField] at hty
      | jstr s2 => simp [getField] at hty
      | jarr l2 => simp [getField] at hty

/-- Witness for C9: one well-formed attachment is kept while a string
entry and an entry missing `name` are dropped; the message is
accepted. -/
theorem validators_filter_attachments_check :
    ∃ out, validateMessageAt 7 0 (JValue.jobj
        [("role", JValue.jstr "user"), ("content", JValue.jstr "hi"),
         ("attachments", JValue.jarr
           [JValue.jobj [("type", JValue.jstr "image"), ("name", JValue.jstr "a"),
              ("data", JValue.jstr "dd")],
            JValue.jstr "junk",
            JValue.jobj [("type", JValue.jstr "file"),
              ("data", JValue.jstr "x")]])]) = .ok out ∧
      out.attachments.getD [] = [⟨"image", "a", "dd", none⟩] := by
  have h := ((validators_filter_attachments 7 0
    [("role", JValue.jstr "user"), ("content", JValue.jstr "hi"),
     ("attachments", JValue.jarr
       [JValue.jobj [("type", JValue.jstr "image"), ("name", JValue.jstr "a"),
          ("data", JValue.jstr "dd")],
        JValue.jstr "junk",
        JValue.jobj [("type", JValue.jstr "file"), ("data", JValue.jstr "x")]])]
    [JValue.jobj [("type", JValue.jstr "image"), ("name", JValue.jstr "a"),
        ("data", JValue.jstr "dd")],
     JValue.jstr "junk",
     JValue.jobj [("type", JValue.jstr "file"), ("data", JValue.jstr "x")]]
    JValue.jnull).1 rfl rfl rfl).1
  obtain ⟨out, hok, heq⟩ := h
  refine ⟨out, hok, ?_⟩
  rw [heq]
  rfl
